import Mathlib

/-!
Shallow embedding of the LambPDF document pipeline (src/LambPDF/LambPDF.py)
and proofs about its page-transform operations, error kinds, OCR polling
loop, result pagination, and OCR overlay rendering.

Machine reals (Python floats) are modelled as rationals; PDF byte buffers
are modelled by their observable content (byte count and parsed page list);
fallible operations return Except over an explicit error-kind type.
-/

namespace LambPDF

/-- Kinds of exceptions the module raises: S3Error, TextractError,
PDFProcessingError, and the built-in ValueError used for argument
validation in concatenate_pdfs and duplicate_pages. -/
inductive Err
  | s3
  | textract
  | pdfProcessing
  | valueError
deriving DecidableEq

/-- A PDF media box, four numbers as stored in the file:
lower-left x, lower-left y, upper-right x, upper-right y. -/
structure MBox where
  x0 : ℚ
  y0 : ℚ
  x1 : ℚ
  y1 : ℚ
deriving DecidableEq

/-- Width of a media box as pypdf computes mediabox.width. -/
def MBox.width (m : MBox) : ℚ := m.x1 - m.x0

/-- Uniform scaling of a media box, as pypdf page.scale_by scales the
mediabox coordinates. -/
def MBox.scaleBy (m : MBox) (s : ℚ) : MBox :=
  ⟨m.x0 * s, m.y0 * s, m.x1 * s, m.y1 * s⟩

/-- A PDF page as the operations observe it: a media box and an optional
Annots array (annotations modelled by identifiers). -/
structure Page where
  mediaBox : MBox
  annots : Option (List Nat)
deriving DecidableEq

/-- Placeholder page used as the default for list indexing. -/
def dummyPage : Page := ⟨⟨0, 0, 0, 0⟩, none⟩

/-- Placeholder media box used as the default for list indexing. -/
def dummyBox : MBox := ⟨0, 0, 0, 0⟩

/-- A PDF byte buffer as the operations observe it: its byte count
(concatenate_pdfs tests getbuffer().nbytes) and the page list a reader
would parse from it. -/
structure Buffer where
  nbytes : Nat
  pages : List Page
deriving DecidableEq

/-- Embedding of concatenate_pdfs: raises ValueError when the input list
is empty, then skips buffers whose byte count is zero and appends the
pages of the remaining buffers in list order. -/
def concatenate_pdfs (bufs : List Buffer) : Except Err (List Page) :=
  if bufs.isEmpty then .error .valueError
  else .ok ((bufs.filter (fun b => b.nbytes != 0)).map Buffer.pages).flatten

/-- Embedding of duplicate_pages: raises ValueError when copies < 1,
otherwise appends the full page sequence copies times in order. -/
def duplicate_pages (buf : Buffer) (copies : Int) : Except Err (List Page) :=
  if copies < 1 then .error .valueError
  else .ok (List.replicate copies.toNat buf.pages).flatten

/-- Embedding of append_blank_page: raises PDFProcessingError when the
input has no pages, otherwise appends one page whose MediaBox is
[0, 0, first.MediaBox[2], first.MediaBox[3]] and which has no Annots. -/
def append_blank_page (buf : Buffer) : Except Err (List Page) :=
  match buf.pages with
  | [] => .error .pdfProcessing
  | p :: _ =>
      .ok (buf.pages ++ [{ mediaBox := ⟨0, 0, p.mediaBox.x1, p.mediaBox.y1⟩, annots := none }])

/-- Embedding of flatten_as_images with retain_x_scale: the original
document is given by its page media boxes, the externally flattened
document by its page media boxes; each flattened page is scaled by
original_page_1_width / its own width. Reading pages[0] of an empty
original raises inside the with_temp_files wrapper, hence
PDFProcessingError. With retain_x_scale false the flattened pages are
returned unchanged. -/
def flatten_as_images (orig flat : List MBox) (retainXScale : Bool) :
    Except Err (List MBox) :=
  if retainXScale then
    match orig with
    | [] => .error .pdfProcessing
    | o :: _ => .ok (flat.map (fun m => m.scaleBy (MBox.width o / MBox.width m)))
  else .ok flat

/-- Embedding of download_pdf_from_s3 over the S3 client response:
none stands for a botocore ClientError, which is wrapped as S3Error. -/
def download_pdf_from_s3 (resp : Option (List Nat)) : Except Err (List Nat) :=
  match resp with
  | some body => .ok body
  | none => .error .s3

/-- Embedding of upload_pdf_to_s3 over the S3 client response:
none stands for a botocore ClientError, which is wrapped as S3Error. -/
def upload_pdf_to_s3 (resp : Option Unit) : Except Err Unit :=
  match resp with
  | some r => .ok r
  | none => .error .s3

/-- An AcroForm dictionary as embed_form_annotations observes it: an
optional Fields array (fields modelled by identifiers), an optional
NeedAppearances entry, and the remaining key-value entries. -/
structure AcroForm where
  fields : Option (List Nat)
  needAppearances : Option Bool
  others : List (String × String)
deriving DecidableEq

/-- Python truthiness of an AcroForm PdfDict: an empty dictionary is
falsy. -/
def AcroForm.isEmptyDict : AcroForm → Bool
  | ⟨none, none, []⟩ => true
  | _ => false

/-- A parsed PDF document as embed_form_annotations observes it: a page
list and an optional Root.AcroForm dictionary. -/
structure PdfDoc where
  pages : List Page
  acroForm : Option AcroForm
deriving DecidableEq

/-- Page-wise annotation merge from the zip loop of
embed_form_annotations: when the form page has a truthy Annots array,
the background page Annots becomes (its own Annots or []) plus the form
page Annots; otherwise the background page is unchanged. -/
def mergePageAnnots (bg fp : Page) : Page :=
  match fp.annots with
  | some l => if l.isEmpty then bg else { bg with annots := some (bg.annots.getD [] ++ l) }
  | none => bg

/-- Dictionary assignment d[k] = v over an association list, keeping the
position of an existing key. -/
def setKey (l : List (String × String)) (k v : String) : List (String × String) :=
  if l.any (fun e => e.1 == k) then l.map (fun e => if e.1 == k then (k, v) else e)
  else l ++ [(k, v)]

/-- Sequence of dictionary assignments, one per update entry. -/
def setKeys (base upd : List (String × String)) : List (String × String) :=
  upd.foldl (fun acc e => setKey acc e.1 e.2) base

/-- AcroForm merge from embed_form_annotations: a falsy background
AcroForm is replaced by an empty dictionary; then every form entry
overwrites the background entry. The special case for the Fields key is
dead code: pdfrw dictionary keys carry a leading slash, so the
comparison of the iterated key against the bare string Fields is never
true and the form Fields array overwrites the background one like any
other entry, instead of being concatenated onto it. Finally
NeedAppearances is set to true. -/
def mergeAcro (bg : Option AcroForm) (fa : AcroForm) : AcroForm :=
  let base := bg.getD ⟨none, none, []⟩
  let base1 :=
    match fa.fields with
    | none => base
    | some fs => { base with fields := some fs }
  let base2 := { base1 with others := setKeys base1.others fa.others }
  { base2 with needAppearances := some true }

/-- Embedding of embed_form_annotations: zips the background and form
page lists merging annotations, keeps every background page, and merges
the form AcroForm into the background AcroForm when the form has a
truthy AcroForm. -/
def embed_form_annotations (bg form : PdfDoc) : PdfDoc :=
  let pages := List.zipWith mergePageAnnots bg.pages form.pages ++
    bg.pages.drop form.pages.length
  let acro :=
    match form.acroForm with
    | some fa => if fa.isEmptyDict then bg.acroForm else some (mergeAcro bg.acroForm fa)
    | none => bg.acroForm
  { pages := pages, acroForm := acro }

/-- One response of the Textract get_document_text_detection status
query: either a botocore ClientError or a JobStatus string. -/
inductive StatusResp
  | clientError
  | status (s : String)
deriving DecidableEq

/-- A status response on which the polling loop keeps waiting: a
successful query whose JobStatus is neither SUCCEEDED nor FAILED. -/
def isInProgress : StatusResp → Bool
  | .clientError => false
  | .status s => !(s == "SUCCEEDED") && !(s == "FAILED")

/-- Outcome of the polling phase of textract_pdf_from_s3: proceed to
result retrieval, raise an error kind, or still polling (the supplied
response sequence was exhausted without a terminal status). -/
inductive PollResult
  | ok
  | err (e : Err)
  | running
deriving DecidableEq

/-- Embedding of the polling loop of textract_pdf_from_s3 over the
sequence of status responses it receives: a query failure raises
TextractError, a SUCCEEDED status exits the loop towards retrieval, a
FAILED status exits the loop and then raises TextractError, any other
status sleeps and re-queries. -/
def poll_statuses : List StatusResp → PollResult
  | [] => .running
  | .clientError :: _ => .err .textract
  | .status s :: rest =>
      if s == "SUCCEEDED" then .ok
      else if s == "FAILED" then .err .textract
      else poll_statuses rest

/-- Fixed sleep interval of the polling loop, in seconds. -/
def poll_interval_seconds : Nat := 5

/-- A Textract result Block as the module observes it: BlockType, the
optional Page attribute, the bounding box Left and Top fractions, and
the recognized Text. -/
structure Block where
  blockType : String
  page : Option Nat
  left : ℚ
  top : ℚ
  text : String
deriving DecidableEq

/-- Key under which a block is filed: block.get(Page, 0). -/
def pageKey (b : Block) : Nat := b.page.getD 0

/-- One pagination step of the result loop of textract_pdf_from_s3:
appends each block of the response to the bucket of its page key. -/
def addBlocks (m : Nat → List Block) (bs : List Block) : Nat → List Block :=
  bs.foldl (fun acc b => fun k => if k = pageKey b then acc k ++ [b] else acc k) m

/-- Embedding of the result-pagination phase of textract_pdf_from_s3:
folds every continuation page of blocks into the blocks-by-page map,
starting from the empty defaultdict. -/
def textract_collect (records : List (List Block)) : Nat → List Block :=
  records.foldl addBlocks (fun _ => [])

/-- Test from the overlay loop: BlockType in [WORD, LINE]. -/
def isTextBlock (b : Block) : Bool :=
  b.blockType == "WORD" || b.blockType == "LINE"

/-- One drawString call of the overlay loop on a page of the given width
and height: x = Left times width minus 2, y = height minus Top times
height minus 9, with the block text. -/
def drawCall (w h : ℚ) (b : Block) : ℚ × ℚ × String :=
  (b.left * w - 2, h - b.top * h - 9, b.text)

/-- Overlay content generated for one page: the drawString calls of the
WORD and LINE blocks, in block order. -/
def pageOverlay (w h : ℚ) (blocks : List Block) : List (ℚ × ℚ × String) :=
  (blocks.filter isTextBlock).map (drawCall w h)

/-- Lookup in the blocks-by-page map, modelled as an association list:
dict.get(k, []) is (lookupPage m k).getD []. -/
def lookupPage (m : List (Nat × List Block)) (k : Nat) : Option (List Block) :=
  (m.find? (fun e => e.1 == k)).map (fun e => e.2)

/-- Overlay pages generated from position i onwards, mirroring the
enumerate loop of overlay_ocr_on_pdf: page i uses its own media box
upper-right coordinates as width and height and the map entry for page
number i + 1. -/
def overlayFrom (m : List (Nat × List Block)) : Nat → List MBox →
    List (List (ℚ × ℚ × String))
  | _, [] => []
  | i, p :: ps =>
      pageOverlay p.x1 p.y1 ((lookupPage m (i + 1)).getD []) :: overlayFrom m (i + 1) ps

/-- Embedding of the overlay-generation phase of overlay_ocr_on_pdf:
one overlay page per input page, starting the enumeration at 0. -/
def overlay_ocr_on_pdf (pages : List MBox) (m : List (Nat × List Block)) :
    List (List (ℚ × ℚ × String)) :=
  overlayFrom m 0 pages

/-- Sample letter-size page used by concrete witnesses. -/
def pageA : Page := ⟨⟨0, 0, 612, 792⟩, none⟩

/-- Sample one-page buffer used by concrete witnesses. -/
def bufA : Buffer := ⟨100, [pageA]⟩

/-- Sample WORD block used by concrete witnesses. -/
def blockW : Block := ⟨"WORD", some 1, 1/2, 1/4, "hi"⟩

/-- Sample background document used by concrete witnesses. -/
def bgW : PdfDoc := ⟨[⟨⟨0, 0, 612, 792⟩, some [1]⟩], some ⟨some [10], none, []⟩⟩

/-- Sample form document used by concrete witnesses. -/
def formW : PdfDoc := ⟨[⟨⟨0, 0, 612, 792⟩, some [2]⟩], some ⟨some [20], none, []⟩⟩

/-- Helper: every error of the polling loop is a TextractError. -/
theorem poll_err_kind (rs : List StatusResp) (e : Err)
    (h : poll_statuses rs = .err e) : e = Err.textract := by
  induction rs with
  | nil => simp [poll_statuses] at h
  | cons r rest ih =>
    cases r with
    | clientError =>
      simp only [poll_statuses, PollResult.err.injEq] at h
      exact h.symm
    | status s =>
      simp only [poll_statuses] at h
      split at h
      · simp at h
      · split at h
        · simp only [PollResult.err.injEq] at h
          exact h.symm
        · exact ih h

/-- C3 counterexample: a list holding a single zero-byte buffer has an
empty list of contributing buffers, yet concatenate_pdfs succeeds with a
zero-page output instead of failing. -/
theorem concatenate_pdfs_all_empty_succeeds :
    concatenate_pdfs [⟨0, []⟩] = Except.ok [] ∧
    [(⟨0, []⟩ : Buffer)].filter (fun b => b.nbytes != 0) = [] :=
  ⟨rfl, rfl⟩

/-- C3 (amended): concatenate_pdfs raises ValueError exactly when the
input list itself is empty; otherwise it skips zero-byte buffers with a
warning and appends the pages of the remaining buffers in list order,
and in particular one zero-byte buffer followed by one valid buffer
yields exactly the valid buffer pages. -/
theorem concatenate_pdfs_spec (bufs : List Buffer) :
    (bufs = [] → concatenate_pdfs bufs = .error .valueError) ∧
    (bufs ≠ [] → concatenate_pdfs bufs =
      .ok ((bufs.filter (fun b => b.nbytes != 0)).map Buffer.pages).flatten) ∧
    (∀ z v : Buffer, z.nbytes = 0 → v.nbytes ≠ 0 →
      concatenate_pdfs [z, v] = .ok v.pages) := by
  refine ⟨?_, ?_, ?_⟩
  · rintro rfl; rfl
  · intro h
    simp [concatenate_pdfs, List.isEmpty_iff, h]
  · intro z v hz hv
    simp [concatenate_pdfs, hz, hv]

/-- C3 witness: the amended claim evaluated on an empty list and on a
zero-byte buffer followed by a valid buffer. -/
theorem concatenate_pdfs_spec_witness :
    concatenate_pdfs [] = Except.error Err.valueError ∧
    concatenate_pdfs [⟨0, []⟩, bufA] = Except.ok bufA.pages :=
  ⟨(concatenate_pdfs_spec []).1 rfl,
   (concatenate_pdfs_spec [⟨0, []⟩, bufA]).2.2 ⟨0, []⟩ bufA rfl (by decide)⟩

/-- C5: duplicate_pages with copies at least 1 returns the full input
page sequence repeated copies times in order, with exactly
copies times pages(input) pages, and fails with ValueError for any
copies below 1. -/
theorem duplicate_pages_spec (buf : Buffer) (c : Int) :
    (1 ≤ c →
      duplicate_pages buf c = .ok (List.replicate c.toNat buf.pages).flatten ∧
      (List.replicate c.toNat buf.pages).flatten.length = c.toNat * buf.pages.length) ∧
    (c < 1 → duplicate_pages buf c = .error .valueError) := by
  constructor
  · intro h
    constructor
    · simp [duplicate_pages, not_lt.mpr h]
    · simp [List.length_flatten, List.map_replicate, List.sum_replicate, smul_eq_mul]
  · intro h
    simp [duplicate_pages, h]

/-- C5 witness: duplicating a one-page buffer three times, and the
failure at zero copies. -/
theorem duplicate_pages_spec_witness :
    (duplicate_pages bufA 3 = .ok (List.replicate (Int.toNat 3) bufA.pages).flatten ∧
      (List.replicate (Int.toNat 3) bufA.pages).flatten.length =
        (Int.toNat 3) * bufA.pages.length) ∧
    duplicate_pages bufA 0 = .error .valueError :=
  ⟨(duplicate_pages_spec bufA 3).1 (by decide),
   (duplicate_pages_spec bufA 0).2 (by decide)⟩

/-- C6 counterexample: on a single-page input whose media box has
lower-left corner (1, 2), append_blank_page produces a second page whose
media box [0, 0, 612, 792] differs from the first page media box. -/
theorem append_blank_page_counterexample :
    append_blank_page ⟨9, [⟨⟨1, 2, 612, 792⟩, none⟩]⟩ =
      Except.ok [⟨⟨1, 2, 612, 792⟩, none⟩, ⟨⟨0, 0, 612, 792⟩, none⟩] ∧
    (⟨0, 0, 612, 792⟩ : MBox) ≠ ⟨1, 2, 612, 792⟩ := by
  refine ⟨rfl, ?_⟩
  intro h
  have h0 := congrArg MBox.x0 h
  norm_num at h0

/-- C6 (amended): append_blank_page fails with PDFProcessingError on a
zero-page input; otherwise it appends one final page whose media box is
[0, 0, m2, m3] where m2 and m3 are the third and fourth entries of the
first page media box, which equals the first page media box whenever
that box has lower-left corner (0, 0). -/
theorem append_blank_page_spec (buf : Buffer) :
    (buf.pages = [] → append_blank_page buf = .error .pdfProcessing) ∧
    (∀ p rest, buf.pages = p :: rest →
      append_blank_page buf =
        .ok (buf.pages ++ [{ mediaBox := ⟨0, 0, p.mediaBox.x1, p.mediaBox.y1⟩,
                             annots := none }]) ∧
      (p.mediaBox.x0 = 0 → p.mediaBox.y0 = 0 →
        (⟨0, 0, p.mediaBox.x1, p.mediaBox.y1⟩ : MBox) = p.mediaBox)) := by
  constructor
  · intro h
    simp [append_blank_page, h]
  · intro p rest h
    constructor
    · simp [append_blank_page, h]
    · intro h0 h1
      obtain ⟨⟨a, b, c, d⟩, an⟩ := p
      simp only at h0 h1
      simp [h0, h1]

/-- C6 witness: appending a blank page to a one-page buffer whose media
box starts at the origin yields two pages with equal media boxes. -/
theorem append_blank_page_spec_witness :
    append_blank_page bufA =
      .ok (bufA.pages ++ [{ mediaBox := ⟨0, 0, pageA.mediaBox.x1, pageA.mediaBox.y1⟩,
                            annots := none }]) ∧
    (⟨0, 0, pageA.mediaBox.x1, pageA.mediaBox.y1⟩ : MBox) = pageA.mediaBox :=
  ⟨((append_blank_page_spec bufA).2 pageA [] rfl).1,
   ((append_blank_page_spec bufA).2 pageA [] rfl).2 rfl rfl⟩

/-- C7 counterexample: concatenate_pdfs on an empty list raises the
built-in ValueError, which is none of the three documented failure
kinds. -/
theorem concatenate_pdfs_raises_value_error :
    concatenate_pdfs [] = Except.error Err.valueError ∧
    Err.valueError ≠ Err.s3 ∧ Err.valueError ≠ Err.textract ∧
    Err.valueError ≠ Err.pdfProcessing :=
  ⟨rfl, by decide, by decide, by decide⟩

/-- C7 (amended): every failure is an S3Error for blob transfers, a
TextractError for the OCR polling loop, or a PDFProcessingError for the
other transforms, except that argument validation raises the built-in
ValueError: concatenate_pdfs on an empty input list and duplicate_pages
with copies below 1. -/
theorem error_kinds_spec :
    (∀ resp b, download_pdf_from_s3 resp = .error b → b = Err.s3) ∧
    (∀ resp b, upload_pdf_to_s3 resp = .error b → b = Err.s3) ∧
    (∀ rs e, poll_statuses rs = .err e → e = Err.textract) ∧
    (∀ bufs e, concatenate_pdfs bufs = .error e → e = Err.valueError ∧ bufs = []) ∧
    (∀ buf c e, duplicate_pages buf c = .error e → e = Err.valueError ∧ c < 1) ∧
    (∀ buf e, append_blank_page buf = .error e → e = Err.pdfProcessing ∧ buf.pages = []) ∧
    (∀ orig flat r e, flatten_as_images orig flat r = .error e →
      e = Err.pdfProcessing ∧ orig = [] ∧ r = true) := by
  refine ⟨?_, ?_, fun rs e h => poll_err_kind rs e h, ?_, ?_, ?_, ?_⟩
  · intro resp b h
    cases resp with
    | none =>
      simp only [download_pdf_from_s3, Except.error.injEq] at h
      exact h.symm
    | some body => simp [download_pdf_from_s3] at h
  · intro resp b h
    cases resp with
    | none =>
      simp only [upload_pdf_to_s3, Except.error.injEq] at h
      exact h.symm
    | some r => simp [upload_pdf_to_s3] at h
  · intro bufs e h
    by_cases hb : bufs.isEmpty
    · simp only [concatenate_pdfs, hb, if_true, Except.error.injEq] at h
      exact ⟨h.symm, List.isEmpty_iff.mp hb⟩
    · simp [concatenate_pdfs, hb] at h
  · intro buf c e h
    by_cases hc : c < 1
    · simp only [duplicate_pages, if_pos hc, Except.error.injEq] at h
      exact ⟨h.symm, hc⟩
    · simp [duplicate_pages, hc] at h
  · intro buf e h
    cases hp : buf.pages with
    | nil =>
      simp only [append_blank_page, hp, Except.error.injEq] at h
      exact ⟨h.symm, rfl⟩
    | cons p rest => simp [append_blank_page, hp] at h
  · intro orig flat r e h
    cases r with
    | false => simp [flatten_as_images] at h
    | true =>
      cases orig with
      | nil =>
        simp only [flatten_as_images, if_true, Except.error.injEq] at h
        exact ⟨h.symm, rfl, rfl⟩
      | cons o os => simp [flatten_as_images] at h

/-- C7 witness: the amended claim evaluated on a failing S3 download, a
failing status query, and an empty concatenation list. -/
theorem error_kinds_spec_witness :
    Err.s3 = Err.s3 ∧ Err.textract = Err.textract ∧
    (Err.valueError = Err.valueError ∧ ([] : List Buffer) = []) :=
  ⟨error_kinds_spec.1 none Err.s3 rfl,
   error_kinds_spec.2.2.1 [StatusResp.clientError] Err.textract rfl,
   error_kinds_spec.2.2.2.1 [] Err.valueError rfl⟩

/-- Helper: the polling loop passes over any prefix of in-progress
status responses without changing its outcome. -/
theorem poll_skip (pre rest : List StatusResp) (h : pre.all isInProgress = true) :
    poll_statuses (pre ++ rest) = poll_statuses rest := by
  induction pre with
  | nil => rfl
  | cons a pre ih =>
    simp only [List.all_cons, Bool.and_eq_true] at h
    cases a with
    | clientError => simp [isInProgress] at h
    | status s =>
      have hsf : (s == "SUCCEEDED") = false ∧ (s == "FAILED") = false := by
        have := h.1
        simpa [isInProgress, Bool.and_eq_true, Bool.not_eq_true'] using this
      simp only [List.cons_append, poll_statuses, hsf.1, hsf.2, Bool.false_eq_true,
        if_false]
      exact ih h.2

/-- Helper: the polling loop reaches result retrieval only when an
in-progress prefix is followed by a SUCCEEDED status. -/
theorem poll_ok_decomp (rs : List StatusResp) (h : poll_statuses rs = .ok) :
    ∃ pre post, rs = pre ++ .status "SUCCEEDED" :: post ∧
      pre.all isInProgress = true := by
  induction rs with
  | nil => simp [poll_statuses] at h
  | cons a rest ih =>
    cases a with
    | clientError => simp [poll_statuses] at h
    | status s =>
      by_cases hs : s = "SUCCEEDED"
      · exact ⟨[], rest, by simp [hs], rfl⟩
      · by_cases hf : s = "FAILED"
        · simp [poll_statuses, hs, hf] at h
        · obtain ⟨pre, post, hrs, hall⟩ := ih (by simpa [poll_statuses, hs, hf] using h)
          exact ⟨.status s :: pre, post, by simp [hrs],
            by simp [List.all_cons, isInProgress, hs, hf, hall]⟩

/-- Helper: the polling loop raises only when an in-progress prefix is
followed by a query failure or a FAILED status. -/
theorem poll_err_decomp (rs : List StatusResp) (e : Err)
    (h : poll_statuses rs = .err e) :
    ∃ pre r post, rs = pre ++ r :: post ∧ pre.all isInProgress = true ∧
      (r = StatusResp.clientError ∨ r = .status "FAILED") := by
  induction rs with
  | nil => simp [poll_statuses] at h
  | cons a rest ih =>
    cases a with
    | clientError => exact ⟨[], .clientError, rest, rfl, rfl, Or.inl rfl⟩
    | status s =>
      by_cases hs : s = "SUCCEEDED"
      · simp [poll_statuses, hs] at h
      · by_cases hf : s = "FAILED"
        · exact ⟨[], .status s, rest, rfl, rfl, Or.inr (by simp [hf])⟩
        · obtain ⟨pre, r, post, hrs, hall, hr⟩ :=
            ih (by simpa [poll_statuses, hs, hf] using h)
          exact ⟨.status s :: pre, r, post, by simp [hrs],
            by simp [List.all_cons, isInProgress, hs, hf, hall], hr⟩

/-- Helper: the polling loop is still waiting exactly when every
response so far was an in-progress status. -/
theorem poll_running_iff (rs : List StatusResp) :
    poll_statuses rs = .running ↔ rs.all isInProgress = true := by
  induction rs with
  | nil => simp [poll_statuses]
  | cons a rest ih =>
    cases a with
    | clientError => simp [poll_statuses, isInProgress]
    | status s =>
      by_cases hs : s = "SUCCEEDED"
      · simp [poll_statuses, hs, isInProgress]
      · by_cases hf : s = "FAILED"
        · simp [poll_statuses, hs, hf, isInProgress]
        · simp [poll_statuses, hs, hf, isInProgress, ih]

/-- C8: the polling loop sleeps a fixed 5 second interval; it stays in
the loop exactly while every status is neither SUCCEEDED nor FAILED; it
proceeds to result retrieval exactly when an in-progress prefix is
followed by SUCCEEDED; it raises exactly when an in-progress prefix is
followed by a query failure or a FAILED status, and such an error is
always a TextractError. -/
theorem textract_poll_spec (rs : List StatusResp) :
    poll_interval_seconds = 5 ∧
    (poll_statuses rs = .running ↔ rs.all isInProgress = true) ∧
    (poll_statuses rs = .ok ↔
      ∃ pre post, rs = pre ++ .status "SUCCEEDED" :: post ∧
        pre.all isInProgress = true) ∧
    ((∃ e, poll_statuses rs = .err e) ↔
      ∃ pre r post, rs = pre ++ r :: post ∧ pre.all isInProgress = true ∧
        (r = StatusResp.clientError ∨ r = .status "FAILED")) ∧
    (∀ e, poll_statuses rs = .err e → e = Err.textract) := by
  refine ⟨rfl, poll_running_iff rs, ⟨poll_ok_decomp rs, ?_⟩, ⟨?_, ?_⟩,
    fun e h => poll_err_kind rs e h⟩
  · rintro ⟨pre, post, rfl, hall⟩
    rw [poll_skip pre _ hall]
    simp [poll_statuses]
  · rintro ⟨e, h⟩
    exact poll_err_decomp rs e h
  · rintro ⟨pre, r, post, rfl, hall, hr⟩
    refine ⟨Err.textract, ?_⟩
    rw [poll_skip pre _ hall]
    rcases hr with rfl | rfl
    · rfl
    · simp [poll_statuses]

/-- C8 witness: the polling claim evaluated on a sequence that fails its
first status query. -/
theorem textract_poll_spec_witness : Err.textract = Err.textract :=
  (textract_poll_spec [StatusResp.clientError]).2.2.2.2 Err.textract rfl

/-- Helper: one pagination step appends exactly the blocks of the
response whose page key matches, in response order. -/
theorem addBlocks_apply (bs : List Block) (m : Nat → List Block) (k : Nat) :
    addBlocks m bs k = m k ++ bs.filter (fun b => pageKey b == k) := by
  induction bs generalizing m with
  | nil => simp [addBlocks]
  | cons b bs ih =>
    rw [show addBlocks m (b :: bs) =
      addBlocks (fun k => if k = pageKey b then m k ++ [b] else m k) bs from rfl]
    rw [ih]
    by_cases hk : k = pageKey b
    · simp [hk, List.filter_cons, List.append_assoc]
    · have h2 : pageKey b ≠ k := fun hh => hk hh.symm
      simp [hk, h2, List.filter_cons]

/-- Helper: the bucket of page key k holds exactly the blocks with key
k, in the order the service returned them across all result pages. -/
theorem textract_collect_apply (records : List (List Block)) (k : Nat) :
    textract_collect records k = records.flatten.filter (fun b => pageKey b == k) := by
  suffices h : ∀ m : Nat → List Block,
      records.foldl addBlocks m k = m k ++ records.flatten.filter (fun b => pageKey b == k) by
    simpa [textract_collect] using h (fun _ => [])
  induction records with
  | nil => intro m; simp
  | cons r rs ih =>
    intro m
    simp only [List.foldl_cons, List.flatten_cons, List.filter_append]
    rw [ih, addBlocks_apply, List.append_assoc]

/-- C9 counterexample: a record whose block lacks the Page attribute is
filed under key 0, so the map does not have only 1-indexed page numbers
as keys. -/
theorem textract_collect_key_zero :
    textract_collect [[⟨"LINE", none, 0, 0, "x"⟩]] 0 = [⟨"LINE", none, 0, 0, "x"⟩] ∧
    (0 : Nat) < 1 :=
  ⟨rfl, by decide⟩

/-- C9 (amended): the bucket for each key is exactly the sequence of
blocks with that page key in the order the service returned them across
all continuation pages; blocks without a Page attribute are filed under
key 0, and when every block carries a page number at least 1 every
occupied key is a 1-indexed page number. -/
theorem textract_collect_spec (records : List (List Block)) (k : Nat) :
    textract_collect records k = records.flatten.filter (fun b => pageKey b == k) ∧
    ((∀ b, b ∈ records.flatten → 1 ≤ pageKey b) →
      textract_collect records k ≠ [] → 1 ≤ k) := by
  refine ⟨textract_collect_apply records k, ?_⟩
  intro hall hne
  rw [textract_collect_apply] at hne
  obtain ⟨b, hb⟩ := List.exists_mem_of_ne_nil _ hne
  have hmem := List.mem_filter.mp hb
  have hk : pageKey b = k := by simpa using hmem.2
  exact hk ▸ hall b hmem.1

/-- C9 witness: a single record whose block carries page number 1
occupies only the key 1. -/
theorem textract_collect_spec_witness : (1 : Nat) ≤ 1 :=
  (textract_collect_spec [[blockW]] 1).2
    (by intro b hb; simp [blockW] at hb; simp [hb, pageKey, blockW])
    (by decide)

/-- Helper: scaling a media box scales its width. -/
theorem width_scaleBy (m : MBox) (s : ℚ) :
    MBox.width (m.scaleBy s) = MBox.width m * s := by
  simp only [MBox.scaleBy, MBox.width]
  ring

/-- C2: with retain_x_scale, flatten_as_images scales every flattened
page by original_page_1_width divided by that page own width, so every
output page of nonzero source width has exactly the original page 1
width; page 1 in particular keeps its width, and any page whose
original width differs from page 1 width is not corrected to it. -/
theorem flatten_as_images_spec (o : MBox) (rest flat out : List MBox)
    (hout : flatten_as_images (o :: rest) flat true = .ok out) :
    out = flat.map (fun m => m.scaleBy (MBox.width o / MBox.width m)) ∧
    out.length = flat.length ∧
    (∀ i (hi : i < flat.length) (ho : i < out.length),
      MBox.width (flat.get ⟨i, hi⟩) ≠ 0 →
        MBox.width (out.get ⟨i, ho⟩) = MBox.width o ∧
        ∀ q : ℚ, q ≠ MBox.width o → MBox.width (out.get ⟨i, ho⟩) ≠ q) := by
  have hmap : out = flat.map (fun m => m.scaleBy (MBox.width o / MBox.width m)) := by
    simp only [flatten_as_images, if_true, Except.ok.injEq] at hout
    exact hout.symm
  subst hmap
  refine ⟨rfl, by simp, ?_⟩
  intro i hi ho hw
  have hget : ((flat.map (fun m => m.scaleBy (MBox.width o / MBox.width m))).get ⟨i, ho⟩) =
      (flat.get ⟨i, hi⟩).scaleBy (MBox.width o / MBox.width (flat.get ⟨i, hi⟩)) := by
    simp [List.get_eq_getElem, List.getElem_map]
  have hwidth : MBox.width ((flat.map
      (fun m => m.scaleBy (MBox.width o / MBox.width m))).get ⟨i, ho⟩) = MBox.width o := by
    rw [hget, width_scaleBy, mul_comm, div_mul_cancel₀ _ hw]
  refine ⟨hwidth, ?_⟩
  intro q hq
  rw [hwidth]
  exact fun hh => hq hh.symm

/-- C2 witness: flattening halves the page, retain scale restores the
original page 1 width of 612. -/
theorem flatten_as_images_spec_witness :
    MBox.width ((([⟨0, 0, 306, 396⟩] : List MBox).map
      (fun m => m.scaleBy (MBox.width ⟨0, 0, 612, 792⟩ / MBox.width m))).get
        ⟨0, by decide⟩) = MBox.width ⟨0, 0, 612, 792⟩ :=
  ((flatten_as_images_spec ⟨0, 0, 612, 792⟩ [] [⟨0, 0, 306, 396⟩] _ rfl).2.2 0
    (by decide) (by decide) (by norm_num [MBox.width])).1

/-- Helper: the merged page list of embed_form_annotations, expressed
element-wise with a default. -/
theorem embed_pages_getD (bgp fp : List Page) (i : Nat) :
    (List.zipWith mergePageAnnots bgp fp ++ bgp.drop fp.length).getD i dummyPage =
      if i < bgp.length then
        (if i < fp.length then
          mergePageAnnots (bgp.getD i dummyPage) (fp.getD i dummyPage)
        else bgp.getD i dummyPage)
      else dummyPage := by
  induction bgp generalizing fp i with
  | nil => simp
  | cons p ps ih =>
    cases fp with
    | nil =>
      simp only [List.zipWith_nil_right, List.drop_zero, List.nil_append,
        List.length_nil, Nat.not_lt_zero, if_false, List.length_cons]
      by_cases hi : i < ps.length + 1
      · rw [if_pos hi]
      · rw [if_neg hi]
        exact List.getD_eq_default _ _ (by simpa using Nat.not_lt.mp hi)
    | cons q qs =>
      cases i with
      | zero => simp
      | succ n =>
        simp only [List.zipWith_cons_cons, List.drop_succ_cons, List.cons_append,
          List.getD_cons_succ, List.length_cons, Nat.add_lt_add_iff_right]
        exact ih qs n

/-- Helper: embed_form_annotations keeps exactly one output page per
background page. -/
theorem embed_pages_len (bg form : PdfDoc) :
    ( embed_form_annotations bg form).pages.length = bg.pages.length := by
  have hp : ( embed_form_annotations bg form).pages =
      List.zipWith mergePageAnnots bg.pages form.pages ++
        bg.pages.drop form.pages.length := rfl
  rw [hp]
  simp only [List.length_append, List.length_zipWith, List.length_drop]
  omega

/-- Helper: the page-wise annotation merge never touches the media box. -/
theorem mergePageAnnots_mediaBox (a b : Page) :
    (mergePageAnnots a b).mediaBox = a.mediaBox := by
  cases hb : b.annots with
  | none => simp [mergePageAnnots, hb]
  | some l =>
    simp only [mergePageAnnots, hb]
    split <;> rfl

/-- C4 counterexample: on a background whose AcroForm Fields array is
[10] and a form whose AcroForm Fields array is [20], the output Fields
array is [20], the form array alone, not the concatenation [10, 20]
claimed for the code. -/
theorem embed_form_annotations_fields_overwritten :
    (( embed_form_annotations bgW formW).acroForm.getD ⟨none, none, []⟩).fields =
      some [20] ∧
    (some [20] : Option (List Nat)) ≠ some ([10] ++ [20]) :=
  ⟨rfl, by decide⟩

/-- C4 (amended): embed_form_annotations zips the two page sequences so
that only the first min-length pages are merged, each merged page
gaining the form page Annots appended to its own when the form page has
any; a form with more pages than the background loses those extra
pages, since the output has exactly the background page count; and
whenever the form has a truthy AcroForm the output AcroForm has
NeedAppearances true and its Fields array is the form Fields array,
which overwrites the background one instead of being concatenated onto
it, because the code comparison of the slash-prefixed iterated key
against the bare string Fields never matches. -/
theorem embed_form_annotations_spec (bg form : PdfDoc) :
    ( embed_form_annotations bg form).pages.length = bg.pages.length ∧
    (∀ i, i < bg.pages.length → i < form.pages.length →
      (( embed_form_annotations bg form).pages.getD i dummyPage).annots =
        (match (form.pages.getD i dummyPage).annots with
         | some l =>
             if l.isEmpty then (bg.pages.getD i dummyPage).annots
             else some ((bg.pages.getD i dummyPage).annots.getD [] ++ l)
         | none => (bg.pages.getD i dummyPage).annots)) ∧
    (∀ fa, form.acroForm = some fa → fa.isEmptyDict = false →
      ( embed_form_annotations bg form).acroForm ≠ none ∧
      (( embed_form_annotations bg form).acroForm.getD
        ⟨none, none, []⟩).needAppearances = some true ∧
      (∀ fs, fa.fields = some fs →
        (( embed_form_annotations bg form).acroForm.getD ⟨none, none, []⟩).fields =
          some fs)) := by
  have hp : ( embed_form_annotations bg form).pages =
      List.zipWith mergePageAnnots bg.pages form.pages ++
        bg.pages.drop form.pages.length := rfl
  refine ⟨embed_pages_len bg form, ?_, ?_⟩
  · intro i h1 h2
    rw [hp, embed_pages_getD, if_pos h1, if_pos h2]
    cases hfa : (form.pages.getD i dummyPage).annots with
    | none => simp only [mergePageAnnots, hfa]
    | some l =>
      simp only [mergePageAnnots, hfa]
      by_cases hl : l.isEmpty
      · simp [hl]
      · simp [hl]
  · intro fa hfa hne
    have hacro : ( embed_form_annotations bg form).acroForm =
        some (mergeAcro bg.acroForm fa) := by
      simp [embed_form_annotations, hfa, hne]
    rw [hacro]
    refine ⟨by simp, rfl, ?_⟩
    intro fs hfs
    simp [mergeAcro, hfs]

/-- C4 witness: merging a one-page form with Annots [2] and Fields [20]
onto a one-page background with Annots [1] and Fields [10] concatenates
the Annots, sets NeedAppearances, and overwrites the Fields array. -/
theorem embed_form_annotations_spec_witness :
    (( embed_form_annotations bgW formW).pages.getD 0 dummyPage).annots =
      some [1, 2] ∧
    (( embed_form_annotations bgW formW).acroForm.getD
      ⟨none, none, []⟩).needAppearances = some true ∧
    (( embed_form_annotations bgW formW).acroForm.getD ⟨none, none, []⟩).fields =
      some [20] :=
  ⟨(embed_form_annotations_spec bgW formW).2.1 0 (by decide) (by decide),
   ((embed_form_annotations_spec bgW formW).2.2 ⟨some [20], none, []⟩ rfl rfl).2.1,
   ((embed_form_annotations_spec bgW formW).2.2 ⟨some [20], none, []⟩ rfl rfl).2.2
     [20] rfl⟩

/-- C10: the output of embed_form_annotations has exactly the background
page count whatever the form page count is; every background page at an
index at or beyond the form page count is carried over unchanged; and
every output page keeps the media box of its background page. -/
theorem embed_form_annotations_frame (bg form : PdfDoc) :
    ( embed_form_annotations bg form).pages.length = bg.pages.length ∧
    (∀ i, form.pages.length ≤ i →
      ( embed_form_annotations bg form).pages.getD i dummyPage =
        bg.pages.getD i dummyPage) ∧
    (∀ i, (( embed_form_annotations bg form).pages.getD i dummyPage).mediaBox =
      (bg.pages.getD i dummyPage).mediaBox) := by
  have hp : ( embed_form_annotations bg form).pages =
      List.zipWith mergePageAnnots bg.pages form.pages ++
        bg.pages.drop form.pages.length := rfl
  refine ⟨embed_pages_len bg form, ?_, ?_⟩
  · intro i hi
    rw [hp, embed_pages_getD]
    by_cases hib : i < bg.pages.length
    · rw [if_pos hib, if_neg (Nat.not_lt.mpr hi)]
    · rw [if_neg hib, List.getD_eq_default _ _ (Nat.not_lt.mp hib)]
  · intro i
    rw [hp, embed_pages_getD]
    by_cases hib : i < bg.pages.length
    · by_cases hif : i < form.pages.length
      · rw [if_pos hib, if_pos hif, mergePageAnnots_mediaBox]
      · rw [if_pos hib, if_neg hif]
    · rw [if_neg hib, List.getD_eq_default _ _ (Nat.not_lt.mp hib)]

/-- C10 witness: a two-page background with a one-page form keeps its
second page unchanged. -/
theorem embed_form_annotations_frame_witness :
    ( embed_form_annotations ⟨[pageA, pageA], none⟩ ⟨[pageA], none⟩).pages.getD 1
      dummyPage = ([pageA, pageA] : List Page).getD 1 dummyPage :=
  (embed_form_annotations_frame ⟨[pageA, pageA], none⟩ ⟨[pageA], none⟩).2.1 1
    (by decide)

/-- Helper: the overlay generator yields one overlay per page. -/
theorem overlayFrom_length (m : List (Nat × List Block)) (j : Nat) (ps : List MBox) :
    (overlayFrom m j ps).length = ps.length := by
  induction ps generalizing j with
  | nil => rfl
  | cons p ps ih => simp [overlayFrom, ih]

/-- Helper: the overlay generated at offset j for position i uses the
map entry of page number j + i + 1 and that page own media box. -/
theorem overlayFrom_getD (m : List (Nat × List Block)) (ps : List MBox) (j i : Nat)
    (hi : i < ps.length) :
    (overlayFrom m j ps).getD i [] =
      pageOverlay (ps.getD i dummyBox).x1 (ps.getD i dummyBox).y1
        ((lookupPage m (j + i + 1)).getD []) := by
  induction ps generalizing j i with
  | nil => simp at hi
  | cons p ps ih =>
    cases i with
    | zero => simp [overlayFrom]
    | succ n =>
      simp only [overlayFrom, List.getD_cons_succ]
      rw [ih (j + 1) n (by simpa using hi),
        show j + 1 + n + 1 = j + (n + 1) + 1 from by omega]

/-- C1: the overlay document has one overlay page per input page; a page
whose 1-indexed number has no entry in the blocks-by-page map gets an
empty overlay; and a page with an entry gets exactly one drawString per
WORD or LINE block, in block order, at x = Left times page_width minus 2
and y = page_height minus Top times page_height minus 9, blocks of any
other type being ignored. -/
theorem overlay_ocr_on_pdf_spec (pages : List MBox) (m : List (Nat × List Block))
    (i : Nat) (hi : i < pages.length) :
    (overlay_ocr_on_pdf pages m).length = pages.length ∧
    (lookupPage m (i + 1) = none → (overlay_ocr_on_pdf pages m).getD i [] = []) ∧
    (∀ bs, lookupPage m (i + 1) = some bs →
      (overlay_ocr_on_pdf pages m).getD i [] =
        (bs.filter (fun b => b.blockType == "WORD" || b.blockType == "LINE")).map
          (fun b => (b.left * (pages.getD i dummyBox).x1 - 2,
            (pages.getD i dummyBox).y1 - b.top * (pages.getD i dummyBox).y1 - 9,
            b.text))) := by
  refine ⟨overlayFrom_length m 0 pages, ?_, ?_⟩
  · intro hnone
    rw [overlay_ocr_on_pdf, overlayFrom_getD m pages 0 i hi]
    simp [hnone, pageOverlay]
  · intro bs hbs
    rw [overlay_ocr_on_pdf, overlayFrom_getD m pages 0 i hi]
    simp only [Nat.zero_add, hbs, Option.getD_some]
    rfl

/-- C1 witness: one letter-size page with one WORD block at Left 1/2,
Top 1/4 draws its text at (304, 585). -/
theorem overlay_ocr_on_pdf_spec_witness :
    (overlay_ocr_on_pdf [⟨0, 0, 612, 792⟩] [(1, [blockW])]).getD 0 [] =
      ([blockW].filter (fun b => b.blockType == "WORD" || b.blockType == "LINE")).map
        (fun b => (b.left * (([⟨0, 0, 612, 792⟩] : List MBox).getD 0 dummyBox).x1 - 2,
          (([⟨0, 0, 612, 792⟩] : List MBox).getD 0 dummyBox).y1 -
            b.top * (([⟨0, 0, 612, 792⟩] : List MBox).getD 0 dummyBox).y1 - 9,
          b.text)) :=
  (overlay_ocr_on_pdf_spec [⟨0, 0, 612, 792⟩] [(1, [blockW])] 0 (by decide)).2.2
    [blockW] rfl

end LambPDF
